import Mathlib

/-!
Shallow embedding of the SurvivalEcho Pygame prototype simulation core
(src/main.py): the tile world, inventory, crafting resolver, entity state
machine, player vital-stat economy, per-tick update and the save/load
snapshot contract.

Modelling conventions:
* Python floats are modelled as rationals (`ℚ`); Python ints as `ℤ`/`ℕ`.
* Python exceptions are modelled as `Option` (a raising computation
  returns `none`).
* `math.hypot`, `math.cos`, `math.sin`, `math.atan2` produce irrational
  values; every such value is supplied as an explicit oracle parameter
  (`EntRand`, `TickRand.moveNorm`), constrained by hypotheses in the
  theorems that depend on its defining equation.
* Mutation is modelled by explicit state passing: a mutating method on a
  Python object becomes a function returning the updated value.
-/

set_option autoImplicit false

namespace SurvivalEcho

/-- Gameplay constant `TILE_SIZE = 32`. -/
def TILE_SIZE : ℚ := 32

/-- Gameplay constant `MAX_HEALTH = 100`. -/
def MAX_HEALTH : ℚ := 100

/-- Gameplay constant `MAX_HUNGER = 100`. -/
def MAX_HUNGER : ℚ := 100

/-- Gameplay constant `MAX_THIRST = 100`. -/
def MAX_THIRST : ℚ := 100

/-- Gameplay constant `MAX_STAMINA = 100`. -/
def MAX_STAMINA : ℚ := 100

/-- Gameplay constant `DAY_LENGTH = 300.0`. -/
def DAY_LENGTH : ℚ := 300

/-- `clamp(n, a, b) = max(a, min(b, n))` from src/main.py. -/
def clamp (n a b : ℚ) : ℚ := max a (min b n)

/-- Python truthiness of an optional string (`if tile.resource:` …):
`None` and the empty string are falsy, every other string is truthy. -/
def pyTruthy : Option String → Bool
  | none => false
  | some s => !s.isEmpty

/-- Python `str.capitalize()`: first character upper-cased, the rest
lower-cased (`rid.capitalize()` in the craft refund path). -/
def pyCapitalize (s : String) : String :=
  match s.data with
  | [] => ""
  | c :: cs => String.mk (c.toUpper :: cs.map Char.toLower)

/-- Python float modulus `a % b` for positive `b`, as used by
`self.time_of_day = (self.time_of_day + dt) % DAY_LENGTH`. -/
def qmod (a b : ℚ) : ℚ := a - b * ⌊a / b⌋

/-- One world cell: `Tile(kind, resource, resource_amount, built)`. -/
structure Tile where
  kind : String := "grass"
  resource : Option String := none
  resource_amount : ℤ := 0
  built : Option String := none
deriving DecidableEq, Repr, Inhabited

/-- The tile grid: `World.w`, `World.h`, `World.tiles` (x-major list of
columns, matching `self.tiles[x][y]`). -/
structure World where
  w : ℕ
  h : ℕ
  tiles : List (List Tile)
deriving DecidableEq, Repr

/-- `World.in_bounds(tx, ty)`. -/
def World.in_bounds (wd : World) (tx ty : ℤ) : Bool :=
  decide (0 ≤ tx) && decide (tx < (wd.w : ℤ)) && decide (0 ≤ ty) && decide (ty < (wd.h : ℤ))

/-- `World.get_tile(tx, ty)`: `None` when out of bounds, else the tile. -/
def World.get_tile (wd : World) (tx ty : ℤ) : Option Tile :=
  if wd.in_bounds tx ty then
    (wd.tiles[tx.toNat]?).bind fun col => col[ty.toNat]?
  else none

/-- In-place mutation of the tile object at `(tx, ty)`, modelled as a
functional update of the nested list. -/
def World.setTile (wd : World) (tx ty : ℕ) (t : Tile) : World :=
  { wd with tiles := wd.tiles.set tx ((wd.tiles.getD tx []).set ty t) }

/-- `World.harvest(tx, ty, amount)`: returns the amount taken and the
updated world.  Mirrors src/main.py lines 149-163. -/
def World.harvest (wd : World) (tx ty amount : ℤ) : ℤ × World :=
  match wd.get_tile tx ty with
  | none => (0, wd)
  | some tile =>
    if !pyTruthy tile.resource then (0, wd)
    else
      let taken := min amount tile.resource_amount
      let ra := tile.resource_amount - taken
      let tile1 := { tile with resource_amount := ra }
      let tile2 :=
        if ra ≤ 0 then
          let t0 := { tile1 with resource := none }
          let t1 := if t0.kind = "forest" then { t0 with kind := "grass" } else t0
          let t2 := if t1.kind = "rock" then { t1 with kind := "grass" } else t1
          t2
        else tile1
      (taken, wd.setTile tx.toNat ty.toNat tile2)

/-- `World.place_structure(tx, ty, structure_name)`. -/
def World.place_structure (wd : World) (tx ty : ℤ) (name : String) : Bool × World :=
  match wd.get_tile tx ty with
  | none => (false, wd)
  | some tile =>
    if pyTruthy tile.built then (false, wd)
    else (true, wd.setTile tx.toNat ty.toNat { tile with built := some name })

/-- `World.remove_structure(tx, ty)`. -/
def World.remove_structure (wd : World) (tx ty : ℤ) : Bool × World :=
  match wd.get_tile tx ty with
  | none => (false, wd)
  | some tile =>
    if !pyTruthy tile.built then (false, wd)
    else (true, wd.setTile tx.toNat ty.toNat { tile with built := none })

/-- The serialized form of a world (`World.to_dict`): each tile dict
`{'k', 'r', 'a', 'b'}` carries exactly the four `Tile` fields. -/
structure WorldData where
  w : ℕ
  h : ℕ
  tiles : List (List Tile)
deriving DecidableEq, Repr

/-- `World.to_dict`: iterates `x in range(w)`, `y in range(h)` and records
every tile field. -/
def World.to_dict (wd : World) : WorldData :=
  ⟨wd.w, wd.h,
   (List.range wd.w).map fun x => (List.range wd.h).map fun y =>
     (wd.tiles.getD x []).getD y default⟩

/-- `World.from_dict`: rebuilds the grid from `data['tiles'][x][y]` for
`x in range(w)`, `y in range(h)`. -/
def World.from_dict (d : WorldData) : World :=
  ⟨d.w, d.h,
   (List.range d.w).map fun x => (List.range d.h).map fun y =>
     (d.tiles.getD x []).getD y default⟩

/-- Well-formedness of the grid representation: the nested lists have the
advertised dimensions.  Holds for every world the program constructs. -/
def World.wf (wd : World) : Prop :=
  wd.tiles.length = wd.w ∧ ∀ col ∈ wd.tiles, col.length = wd.h

/-- One inventory stack: `Item(id, name, amount)`. -/
structure Item where
  id : String
  name : String
  amount : ℤ
deriving DecidableEq, Repr

/-- `Inventory`: Python dict from id to `Item`, modelled as an
insertion-ordered association list (the dict's iteration order), plus the
`capacity` bound on the number of distinct stacks. -/
structure Inventory where
  items : List Item
  capacity : ℕ := 30
deriving DecidableEq, Repr

/-- Increment the stack with the given id (dict entry update in place). -/
def addAux (i : String) (a : ℤ) : List Item → Option (List Item)
  | [] => none
  | it :: rest =>
    if it.id = i then some ({ it with amount := it.amount + a } :: rest)
    else (addAux i a rest).map (it :: ·)

/-- `Inventory.add(item_id, name, amount)`: increment an existing stack
unconditionally, else insert a new stack unless the distinct-stack count
has reached capacity.  Mirrors src/main.py lines 221-229. -/
def Inventory.add (inv : Inventory) (i n : String) (a : ℤ) : Bool × Inventory :=
  match addAux i a inv.items with
  | some its => (true, { inv with items := its })
  | none =>
    if inv.capacity ≤ inv.items.length then (false, inv)
    else (true, { inv with items := inv.items ++ [⟨i, n, a⟩] })

/-- Decrement or delete the stack with the given id; `false` and no
mutation when the id is absent or the stock is insufficient. -/
def removeAux (i : String) (a : ℤ) : List Item → Bool × List Item
  | [] => (false, [])
  | it :: rest =>
    if it.id = i then
      if it.amount < a then (false, it :: rest)
      else if it.amount - a = 0 then (true, rest)
      else (true, { it with amount := it.amount - a } :: rest)
    else
      let r := removeAux i a rest
      (r.1, it :: r.2)

/-- `Inventory.remove(item_id, amount)`: mirrors src/main.py lines 231-240. -/
def Inventory.remove (inv : Inventory) (i : String) (a : ℤ) : Bool × Inventory :=
  let r := removeAux i a inv.items
  (r.1, { inv with items := r.2 })

/-- First-match stock lookup: the amount held under an id, `0` if absent. -/
def stockItems (i : String) : List Item → ℤ
  | [] => 0
  | it :: rest => if it.id = i then it.amount else stockItems i rest

/-- The stock an inventory holds under an id (`0` when absent). -/
def Inventory.stock (inv : Inventory) (i : String) : ℤ := stockItems i inv.items

/-- Dict membership `item_id in self.items`. -/
def memberItems (i : String) : List Item → Bool
  | [] => false
  | it :: rest => it.id = i || memberItems i rest

/-- First-match stock test for `Inventory.has`. -/
def hasItems (i : String) (a : ℤ) : List Item → Bool
  | [] => false
  | it :: rest => if it.id = i then decide (a ≤ it.amount) else hasItems i a rest

/-- `Inventory.has(item_id, amount)`. -/
def Inventory.has (inv : Inventory) (i : String) (a : ℤ) : Bool :=
  hasItems i a inv.items

/-- `Inventory.to_list`: the serialized flat list in insertion order; each
dict `{'id','name','amount'}` carries exactly the `Item` fields. -/
def Inventory.to_list (inv : Inventory) : List Item := inv.items

/-- Python dict insertion: replace the value of an existing key in place,
else append. -/
def dictInsert : List Item → Item → List Item
  | [], it => [it]
  | x :: xs, it => if x.id = it.id then it :: xs else x :: dictInsert xs it

/-- `Inventory.from_list`: rebuilds the dict by inserting every record of
the list in order; capacity is the constructor default 30. -/
def Inventory.from_list (lst : List Item) : Inventory :=
  ⟨lst.foldl dictInsert [], 30⟩

/-- The serialized form of a player (`Player.to_dict`): position, the four
vital stats, the inventory list and the equipped id.  `angle` and
`attack_power` are not persisted. -/
structure PlayerData where
  x : ℚ
  y : ℚ
  health : ℚ
  hunger : ℚ
  thirst : ℚ
  stamina : ℚ
  inventory : List Item
  equipped : Option String
deriving DecidableEq, Repr

/-- `Player`: continuous position, the four vital stats, inventory,
equipped id, attack power.  Defaults mirror the dataclass defaults. -/
structure Player where
  x : ℚ
  y : ℚ
  angle : ℚ := 0
  health : ℚ := MAX_HEALTH
  hunger : ℚ := 0
  thirst : ℚ := 0
  stamina : ℚ := MAX_STAMINA
  inventory : Inventory := ⟨[], 30⟩
  equipped : Option String := none
  attack_power : ℚ := 10
deriving DecidableEq, Repr

/-- `Player.to_dict`. -/
def Player.to_dict (p : Player) : PlayerData :=
  ⟨p.x, p.y, p.health, p.hunger, p.thirst, p.stamina, p.inventory.to_list, p.equipped⟩

/-- `Player.from_dict`: `Player(x, y)` (all defaults) with the persisted
fields assigned afterwards. -/
def Player.from_dict (d : PlayerData) : Player :=
  { x := d.x, y := d.y, health := d.health, hunger := d.hunger, thirst := d.thirst,
    stamina := d.stamina, inventory := Inventory.from_list d.inventory,
    equipped := d.equipped }

/-- A creature: `Entity.__init__` sets velocity 0, health 50, speed 40,
state `'idle'`, radius 10. -/
structure Entity where
  x : ℚ
  y : ℚ
  vx : ℚ := 0
  vy : ℚ := 0
  health : ℚ := 50
  speed : ℚ := 40
  state : String := "idle"
  radius : ℚ := 10
deriving DecidableEq, Repr

/-- Oracle values consumed by one `Entity.update` call: the
`random.random()` draws and the transcendental values (`math.hypot` of the
offset to the player, `cos`/`sin` of the random roam angle and of the flee
angle `atan2(self.y - player.y, self.x - player.x)`). -/
structure EntRand where
  roamRoll : ℚ
  roamCos : ℚ
  roamSin : ℚ
  stopRoll : ℚ
  dist : ℚ
  fleeRoll : ℚ
  fleeCos : ℚ
  fleeSin : ℚ

/-- `Entity.update(dt, world, player)` (src/main.py lines 307-338).
`r.dist` stands for `math.hypot(player.x - self.x, player.y - self.y)`;
when it is zero the proximity branch divides by zero, a Python
`ZeroDivisionError`, modelled as `none`. -/
def Entity.update (e : Entity) (dt : ℚ) (r : EntRand) (px py : ℚ) : Option Entity :=
  let e1 :=
    if e.state = "idle" then
      if r.roamRoll < 1/100 then
        { e with state := "roam", vx := r.roamCos * e.speed, vy := r.roamSin * e.speed }
      else e
    else if e.state = "roam" then
      if r.stopRoll < 5/1000 then { e with state := "idle", vx := 0, vy := 0 } else e
    else e
  let dx := px - e1.x
  let dy := py - e1.y
  let step2 : Option Entity :=
    if r.dist < 150 then
      if r.dist = 0 then none
      else some { e1 with state := "attack",
                          vx := dx / r.dist * (e1.speed * (6/5)),
                          vy := dy / r.dist * (e1.speed * (6/5)) }
    else some e1
  step2.map fun e2 =>
    let e3 :=
      if e2.health < 20 ∧ r.fleeRoll < 3/10 then
        { e2 with state := "flee",
                  vx := r.fleeCos * e2.speed * (3/2),
                  vy := r.fleeSin * e2.speed * (3/2) }
      else e2
    { e3 with x := e3.x + e3.vx * dt, y := e3.y + e3.vy * dt }

/-- The movement-relevant keyboard state consumed by `update_player`. -/
structure Keys where
  w : Bool := false
  a : Bool := false
  s : Bool := false
  d : Bool := false
  shift : Bool := false

/-- Horizontal movement intent: `-1` for A, `+1` for D. -/
def movementX (k : Keys) : ℚ := (if k.a then -1 else 0) + (if k.d then 1 else 0)

/-- Vertical movement intent: `-1` for W, `+1` for S. -/
def movementY (k : Keys) : ℚ := (if k.w then -1 else 0) + (if k.s then 1 else 0)

/-- `Game.update_player(dt)` (src/main.py lines 527-553).  The source
computes `norm = math.hypot(vx, vy)` and branches on `norm > 0`, which
holds exactly when `(vx, vy) ≠ (0, 0)`; the (possibly irrational) value of
the norm is supplied as the oracle `moveNorm`. -/
def update_player (dt : ℚ) (k : Keys) (moveNorm : ℚ) (ww wh : ℕ) (p : Player) : Player :=
  let sprint := k.shift = true ∧ p.stamina > 1
  let speed : ℚ := if sprint then 160 * (9/5) else 160
  let p1 := if sprint then { p with stamina := p.stamina - dt * 10 } else p
  let vx := movementX k
  let vy := movementY k
  let p2 :=
    if vx ≠ 0 ∨ vy ≠ 0 then
      { p1 with x := p1.x + vx / moveNorm * speed * dt,
                y := p1.y + vy / moveNorm * speed * dt,
                stamina := max 0 (p1.stamina - dt * 7) }
    else p1
  { p2 with x := clamp p2.x 0 ((ww : ℚ) * TILE_SIZE - 1),
            y := clamp p2.y 0 ((wh : ℚ) * TILE_SIZE - 1) }

/-- Oracle values consumed by one `Game.update` tick: the weather rolls,
the movement norm, and per-entity (indexed by loop position) the
`EntRand` pack plus the collision distance `math.hypot(e.x - player.x,
e.y - player.y)` measured after the entity moved. -/
structure TickRand where
  weatherRoll : ℚ
  weatherKind : ℚ
  moveNorm : ℚ
  entRand : ℕ → EntRand
  collDist : ℕ → ℚ

/-- The whole mutable session owned by `Game`: the simulation fields
touched by `update`/`craft`/`try_interact`/`save`/`load`. -/
structure Game where
  world : World
  player : Player
  entities : List Entity
  time_of_day : ℚ := 0
  weather : Option String := none
  paused : Bool := false
  camera_x : ℚ := 0
  camera_y : ℚ := 0
deriving DecidableEq, Repr

/-- The per-entity segment of `Game.update`: step each entity's state
machine, then apply contact damage (`dist < 20` → `5*dt` health per tick)
and the death-pause check.  Threads the player's health and the paused
flag through the loop; `none` when some entity update raises. -/
def entLoop (dt : ℚ) (r : TickRand) (px py : ℚ) :
    ℕ → List Entity → ℚ → Bool → Option (List Entity × ℚ × Bool)
  | _, [], hp, pz => some ([], hp, pz)
  | i, e :: rest, hp, pz =>
    match e.update dt (r.entRand i) px py with
    | none => none
    | some e' =>
      let hp1 := if r.collDist i < 20 then hp - 5 * dt else hp
      let pz1 := if r.collDist i < 20 ∧ hp1 ≤ 0 then true else pz
      match entLoop dt r px py (i + 1) rest hp1 pz1 with
      | none => none
      | some (es, hpF, pzF) => some (e' :: es, hpF, pzF)

/-- `Game.update(dt)` (src/main.py lines 485-525): advance the clock and
weather, integrate player movement, step every entity and apply contact
damage, apply hunger/thirst growth and threshold penalties, regenerate
stamina, move the camera. -/
def Game.update (g : Game) (dt : ℚ) (r : TickRand) (k : Keys) : Option Game :=
  let tod := qmod (g.time_of_day + dt) DAY_LENGTH
  let weather :=
    if r.weatherRoll < 1/1000 then
      (if r.weatherKind < 3/10 then some "rain" else none)
    else g.weather
  let p := update_player dt k r.moveNorm g.world.w g.world.h g.player
  match entLoop dt r p.x p.y 0 g.entities p.health g.paused with
  | none => none
  | some (ents, hp0, pz) =>
    let hunger := p.hunger + dt * (1/2)
    let thirst := p.thirst + dt * (9/10)
    let hp1 := if hunger > 80 then hp0 - dt * (1/2) else hp0
    let hp2 := if thirst > 90 then hp1 - dt * 1 else hp1
    let stam :=
      if p.stamina < MAX_STAMINA then min MAX_STAMINA (p.stamina + dt * 5) else p.stamina
    some { g with
      time_of_day := tod, weather := weather,
      player := { p with health := hp2, hunger := hunger, thirst := thirst, stamina := stam },
      entities := ents, paused := pz,
      camera_x := p.x, camera_y := p.y }

/-- A sequence of simulation ticks, each with its elapsed time, oracle
pack and key state; `none` as soon as one tick raises. -/
def runTicks : List (ℚ × TickRand × Keys) → Game → Option Game
  | [], g => some g
  | (dt, r, k) :: rest, g =>
    match g.update dt r k with
    | none => none
    | some g' => runTicks rest g'

/-- The static recipe table `RECIPES`: requirement list (in dict order)
and display name. -/
def RECIPES (rid : String) : Option (List (String × ℤ) × String) :=
  if rid = "wooden_spear" then some ([("wood", 3), ("stone", 1)], "Wooden Spear")
  else if rid = "campfire" then some ([("wood", 5)], "Campfire")
  else if rid = "stone_axe" then some ([("wood", 2), ("stone", 3)], "Stone Axe")
  else if rid = "wooden_shack" then some ([("wood", 20)], "Wooden Shack")
  else none

/-- `Game.craft(recipe_id)` (src/main.py lines 555-590): check every
requirement, consume them, then either place the structure at the player's
tile (refunding every requirement as `add(rid, rid.capitalize(), amt)`
when placement fails) or grant one unit of the crafted item. -/
def Game.craft (g : Game) (rid : String) : Bool × Game :=
  match RECIPES rid with
  | none => (false, g)
  | some (req, name) =>
    if req.all (fun pr => g.player.inventory.has pr.1 pr.2) then
      let inv1 := req.foldl (fun inv pr => (inv.remove pr.1 pr.2).2) g.player.inventory
      if rid = "campfire" then
        let tx : ℤ := ⌊g.player.x / TILE_SIZE⌋
        let ty : ℤ := ⌊g.player.y / TILE_SIZE⌋
        let pl := g.world.place_structure tx ty "campfire"
        if pl.1 then (true, { g with world := pl.2, player := { g.player with inventory := inv1 } })
        else
          let inv2 := req.foldl (fun inv pr => (inv.add pr.1 (pyCapitalize pr.1) pr.2).2) inv1
          (false, { g with player := { g.player with inventory := inv2 } })
      else if rid = "wooden_shack" then
        let tx : ℤ := ⌊g.player.x / TILE_SIZE⌋
        let ty : ℤ := ⌊g.player.y / TILE_SIZE⌋
        let pl := g.world.place_structure tx ty "shack"
        if pl.1 then (true, { g with world := pl.2, player := { g.player with inventory := inv1 } })
        else
          let inv2 := req.foldl (fun inv pr => (inv.add pr.1 (pyCapitalize pr.1) pr.2).2) inv1
          (false, { g with player := { g.player with inventory := inv2 } })
      else
        (true, { g with player := { g.player with inventory := (inv1.add rid name 1).2 } })
    else (false, g)

/-- `Game.try_interact()` (src/main.py lines 460-483): harvest one unit of
the resource under the player, then read the *mutated* tile's resource
field to decide which item to grant (in Python the local `tile` aliases
the tile object `harvest` just mutated); or warm at a campfire. -/
def Game.try_interact (g : Game) : Game :=
  let tx : ℤ := ⌊g.player.x / TILE_SIZE⌋
  let ty : ℤ := ⌊g.player.y / TILE_SIZE⌋
  match g.world.get_tile tx ty with
  | none => g
  | some tile =>
    if pyTruthy tile.resource then
      let hv := g.world.harvest tx ty 1
      let tileAfter := (hv.2.get_tile tx ty).getD tile
      let g1 := { g with world := hv.2 }
      if hv.1 > 0 then
        if tileAfter.resource = some "tree" then
          { g1 with player := { g1.player with
              inventory := (g1.player.inventory.add "wood" "Wood" hv.1).2 } }
        else if tileAfter.resource = some "stone" then
          { g1 with player := { g1.player with
              inventory := (g1.player.inventory.add "stone" "Stone" hv.1).2 } }
        else if tileAfter.resource = some "bush" then
          { g1 with player := { g1.player with
              inventory := (g1.player.inventory.add "berries" "Berries" hv.1).2 } }
        else g1
      else g1
    else if pyTruthy tile.built then
      if tile.built = some "campfire" then
        { g with player := { g.player with
            stamina := min MAX_STAMINA (g.player.stamina + 20),
            health := min MAX_HEALTH (g.player.health + 5) } }
      else g
    else g

/-- One persisted entity record `{'x', 'y', 'health'}`. -/
structure EntData where
  x : ℚ
  y : ℚ
  health : ℚ
deriving DecidableEq, Repr

/-- The parsed save document.  A field is `none` when the corresponding
key is missing or unreadable; a wholly missing or syntactically corrupt
file is represented upstream as `none : Option RawSave` (opening or
`json.load` raised). -/
structure RawSave where
  world : Option WorldData
  player : Option PlayerData
  time_of_day : Option ℚ
  entities : Option (List EntData)

/-- `Game.save(filename)`: the document written to disk. -/
def Game.save (g : Game) : RawSave :=
  ⟨some g.world.to_dict, some g.player.to_dict, some g.time_of_day,
   some (g.entities.map fun e => ⟨e.x, e.y, e.health⟩)⟩

/-- Reconstruction of one entity on load: `Entity(d['x'], d['y'])` with
health assigned afterwards — velocity 0, Idle, speed 40, radius 10. -/
def entFromData (d : EntData) : Entity :=
  ⟨d.x, d.y, 0, 0, d.health, 40, "idle", 10⟩

/-- `Game.load(filename)` (src/main.py lines 603-611), with Python's
exception flow made explicit: a missing/corrupt file (`none`) or a missing
`'world'` key raises before any assignment, leaving the session untouched;
a missing `'player'` key raises *after* `self.world` was already replaced.
`time_of_day` and `entities` are read with `.get` defaults and cannot
raise.  The only caller wraps this in `try/except` and logs the failure. -/
def Game.load (g : Game) (file : Option RawSave) : Game :=
  match file with
  | none => g
  | some raw =>
    match raw.world with
    | none => g
    | some wd =>
      let g1 := { g with world := World.from_dict wd }
      match raw.player with
      | none => g1
      | some pd =>
        { g1 with player := Player.from_dict pd,
                  time_of_day := raw.time_of_day.getD 0,
                  entities := (raw.entities.getD []).map entFromData }

/-- One inventory operation of a replayed `add`/`remove` history. -/
inductive InvOp where
  | addOp (id name : String) (amt : ℤ)
  | removeOp (id : String) (amt : ℤ)
deriving DecidableEq, Repr

/-- Apply one operation, returning the reported Bool and the new state. -/
def applyOp (inv : Inventory) : InvOp → Bool × Inventory
  | .addOp i n a => inv.add i n a
  | .removeOp i a => inv.remove i a

/-- The signed contribution of one operation to the tracked id's ledger,
counted only when the operation reported success. -/
def opDelta (i : String) (op : InvOp) (ok : Bool) : ℤ :=
  if ok then
    match op with
    | .addOp j _ a => if j = i then a else 0
    | .removeOp j a => if j = i then -a else 0
  else 0

/-- Replay a history of operations, accumulating the tracked id's net
successful delta. -/
def runNet (i : String) : Inventory → List InvOp → Inventory × ℤ
  | inv, [] => (inv, 0)
  | inv, op :: rest =>
    let st := applyOp inv op
    let res := runNet i st.2 rest
    (res.1, opDelta i op st.1 + res.2)

/-- An inventory holding one five-unit wood stack. -/
def invWitness : Inventory := ⟨[⟨"wood", "Wood", 5⟩], 30⟩

/-- A replayed history: add 2 wood, remove 3 wood, then fail to remove
99 wood. -/
def opsWitness : List InvOp :=
  [.addOp "wood" "Wood" 2, .removeOp "wood" 3, .removeOp "wood" 99]

/-- An inventory holding one five-unit wood stack whose display name is
not the capitalisation of its id. -/
def invLumber : Inventory := ⟨[⟨"wood", "Lumber", 5⟩], 30⟩

/-- A one-by-one world whose only tile already carries a structure. -/
def worldBuilt : World := ⟨1, 1, [[{ kind := "grass", built := some "campfire" }]]⟩

/-- A session standing on the occupied tile with the `invLumber`
inventory. -/
def gameC1 : Game :=
  { world := worldBuilt, player := { x := 0, y := 0, inventory := invLumber },
    entities := [] }

/-- A fresh forest tile holding a three-unit tree node. -/
def tileTree : Tile := { kind := "forest", resource := some "tree", resource_amount := 3 }

/-- A one-by-one world holding `tileTree`. -/
def worldC2 : World := ⟨1, 1, [[tileTree]]⟩

/-- Keys: sprint modifier held together with W. -/
def keysSprintW : Keys := { w := true, shift := true }

/-- Keys: sprint modifier held with no movement key. -/
def keysShiftOnly : Keys := { shift := true }

/-- Keys: nothing held. -/
def keysIdle : Keys := {}

/-- A player at full vitals standing at (100, 100). -/
def playerC6 : Player := { x := 100, y := 100 }

/-- A fixed oracle pack: no weather change, unit movement norm, far-away
entity distances. -/
def tickRandC3 : TickRand :=
  { weatherRoll := 1, weatherKind := 1, moveNorm := 1,
    entRand := fun _ => ⟨1, 1, 0, 1, 1000, 1, 1, 0⟩,
    collDist := fun _ => 1000 }

/-- A healthy session: fresh vitals, a one-tile world, no entities. -/
def gameC3 : Game :=
  { world := ⟨1, 1, [[{}]]⟩, player := { x := 0, y := 0 }, entities := [] }

/-- The session after one one-second idle tick of `gameC3`. -/
def gameC3Next : Game := (gameC3.update 1 tickRandC3 keysIdle).getD gameC3

/-- A starving, parched, nearly dead player with barely enough stamina to
trigger the sprint branch. -/
def gameHungry : Game :=
  { world := ⟨1, 1, [[{}]]⟩,
    player := { x := 0, y := 0, health := 1, hunger := 100, thirst := 100, stamina := 2 },
    entities := [] }

/-- The session after one one-second shift-held tick of `gameHungry`. -/
def gameHungryNext : Game := (gameHungry.update 1 tickRandC3 keysShiftOnly).getD gameHungry

/-- A default creature at (5, 5). -/
def entC9 : Entity := { x := 5, y := 5 }

/-- Entity oracle with distance 0 (player exactly on the entity). -/
def rZero : EntRand := ⟨1, 1, 0, 1, 0, 1, 1, 0⟩

/-- Entity oracle with distance 5 (a 3-4-5 offset). -/
def rFive : EntRand := ⟨1, 1, 0, 1, 5, 1, 1, 0⟩

/-- A default creature at (7, 3). -/
def entC7 : Entity := { x := 7, y := 3 }

/-- Entity oracle with distance 0, used for the coinciding-position case. -/
def rZeroC7 : EntRand := ⟨1, 1, 0, 1, 0, 1, 1, 0⟩

/-- A default creature at the origin. -/
def entAtk : Entity := { x := 0, y := 0 }

/-- Entity oracle with distance 50 (a 30-40-50 offset). -/
def rFifty : EntRand := ⟨1, 1, 0, 1, 50, 1, 1, 0⟩

/-- The lossy part of the entity round trip: position and health survive a
save/load, velocity and behavior state reset to rest/Idle. -/
def resetEntity (e : Entity) : Entity := ⟨e.x, e.y, 0, 0, e.health, 40, "idle", 10⟩

/-- A populated session for the round-trip witness: dirty vitals, an
equipped item, one roaming entity. -/
def gameC4 : Game :=
  { world := worldC2,
    player := { x := 3, y := 4, health := 77, hunger := 12, thirst := 30, stamina := 55,
                inventory := invWitness, equipped := some "wooden_spear" },
    entities := [{ x := 9, y := 12, vx := 2, vy := 3, health := 33, speed := 40,
                   state := "roam", radius := 10 }],
    time_of_day := 42 }

/-- A parsed world document differing from `gameC5`'s world. -/
def worldDataC5 : WorldData := ⟨1, 1, [[{ kind := "sand" }]]⟩

/-- A corrupt save: the world entry parses, the player entry is missing. -/
def rawC5 : RawSave := ⟨some worldDataC5, none, none, none⟩

/-- A running session about to load the corrupt save. -/
def gameC5 : Game :=
  { world := ⟨1, 1, [[{}]]⟩, player := { x := 0, y := 0 }, entities := [] }

/-- The resource-to-item branch table of `try_interact` (lines 471-476):
which inventory id and display name each resource kind grants. -/
def itemFor : String → Option (String × String)
  | "tree" => some ("wood", "Wood")
  | "stone" => some ("stone", "Stone")
  | "bush" => some ("berries", "Berries")
  | _ => none

/-- Thirty distinct one-unit junk stacks: a full inventory. -/
def fullItems : List Item := (List.range 30).map fun k => ⟨"junk" ++ toString k, "Junk", 1⟩

/-- An inventory at its distinct-stack capacity, holding no wood. -/
def invFull : Inventory := ⟨fullItems, 30⟩

/-- A one-by-one world with a two-unit tree node. -/
def worldTree2 : World :=
  ⟨1, 1, [[{ kind := "forest", resource := some "tree", resource_amount := 2 }]]⟩

/-- A session standing on the two-unit tree with a full inventory. -/
def gameC10 : Game :=
  { world := worldTree2, player := { x := 0, y := 0, inventory := invFull },
    entities := [] }

/-- A one-by-one world with a one-unit (last-unit) tree node. -/
def worldTree1 : World :=
  ⟨1, 1, [[{ kind := "forest", resource := some "tree", resource_amount := 1 }]]⟩

/-- A session standing on the three-unit tree with room for wood. -/
def gameC10w : Game :=
  { world := worldC2, player := { x := 0, y := 0, inventory := invWitness },
    entities := [] }

/-- A session standing on the last-unit tree. -/
def gameC10w1 : Game :=
  { world := worldTree1, player := { x := 0, y := 0, inventory := invWitness },
    entities := [] }

/-! ### Theorems -/

theorem get_tile_set_self {wd : World} {tx ty : ℤ} {tile : Tile}
    (h : wd.get_tile tx ty = some tile) (t : Tile) :
    (wd.setTile tx.toNat ty.toNat t).get_tile tx ty = some t := by
  unfold World.get_tile at h ⊢
  by_cases hb : wd.in_bounds tx ty = true
  · rw [if_pos hb] at h
    obtain ⟨col, hcol, htile⟩ := Option.bind_eq_some.1 h
    have hbx : tx.toNat < wd.tiles.length := (List.getElem?_eq_some.1 hcol).1
    have hby : ty.toNat < col.length := (List.getElem?_eq_some.1 htile).1
    have hgetD : wd.tiles.getD tx.toNat [] = col := by
      simp [List.getD_eq_getElem?_getD, hcol]
    have hb2 : (wd.setTile tx.toNat ty.toNat t).in_bounds tx ty = true := hb
    rw [if_pos hb2]
    simp only [World.setTile, hgetD]
    rw [List.getElem?_set_eq_of_lt _ hbx, Option.some_bind,
        List.getElem?_set_eq_of_lt _ hby]
  · rw [if_neg hb] at h
    exact absurd h (by simp)

theorem setTile_w {wd : World} {tx ty : ℕ} {t : Tile} : (wd.setTile tx ty t).w = wd.w := rfl

theorem setTile_h {wd : World} {tx ty : ℕ} {t : Tile} : (wd.setTile tx ty t).h = wd.h := rfl

/-- C2: for every harvest call, the returned amount is
`min(requested, resourceAmount_before)` when the tile exists and carries a
resource and `0` when the tile is out of bounds or bare; afterwards the
tile's amount has dropped by exactly the taken quantity, and on reaching
zero the resource is cleared and a Forest or Rock kind reverts to Grass
while any other kind is untouched. -/
theorem harvest_spec (wd : World) (tx ty amount : ℤ) (hamt : 0 ≤ amount) :
    (wd.get_tile tx ty = none → wd.harvest tx ty amount = (0, wd)) ∧
    (∀ tile, wd.get_tile tx ty = some tile → pyTruthy tile.resource = false →
      wd.harvest tx ty amount = (0, wd)) ∧
    (∀ tile, wd.get_tile tx ty = some tile → pyTruthy tile.resource = true →
      0 ≤ tile.resource_amount →
      (wd.harvest tx ty amount).1 = min amount tile.resource_amount ∧
      ∃ tile', (wd.harvest tx ty amount).2.get_tile tx ty = some tile' ∧
        tile'.resource_amount = tile.resource_amount - (wd.harvest tx ty amount).1 ∧
        tile'.built = tile.built ∧
        (tile'.resource_amount = 0 →
          tile'.resource = none ∧
          ((tile.kind = "forest" ∨ tile.kind = "rock") → tile'.kind = "grass") ∧
          (tile.kind ≠ "forest" → tile.kind ≠ "rock" → tile'.kind = tile.kind)) ∧
        (tile'.resource_amount ≠ 0 →
          tile'.resource = tile.resource ∧ tile'.kind = tile.kind)) := by
  refine ⟨?_, ?_, ?_⟩
  · intro hnone
    unfold World.harvest
    rw [hnone]
  · intro tile hget hres
    unfold World.harvest
    rw [hget]
    simp [hres]
  · intro tile hget hres hra
    unfold World.harvest
    rw [hget]
    simp only [hres, Bool.not_true, Bool.false_eq_true, if_false]
    have hmin : min amount tile.resource_amount ≤ tile.resource_amount := min_le_right _ _
    have hmin0 : 0 ≤ min amount tile.resource_amount := le_min hamt hra
    refine ⟨trivial, _, get_tile_set_self hget _, ?_, ?_, ?_, ?_⟩
    · split_ifs <;> rfl
    · split_ifs <;> rfl
    · intro h0
      split_ifs with hz hf hr hr <;> simp_all
    · intro h0
      split_ifs with hz hf hr hr <;> simp_all

/-- Witness for `harvest_spec`: harvesting one unit of the three-unit tree
in `worldC2`. -/
theorem harvest_spec_witness :
    (worldC2.harvest 0 0 1).1 = min 1 tileTree.resource_amount ∧
    (worldC2.harvest 0 0 2).1 = 2 := by
  constructor
  · exact ((harvest_spec worldC2 0 0 1 (by decide)).2.2 tileTree (by decide)
      (by decide) (by decide)).1
  · have h := ((harvest_spec worldC2 0 0 2 (by decide)).2.2 tileTree (by decide)
      (by decide) (by decide)).1
    rw [h]; decide

/-- C6 (amended): per `update_player`, a moving non-sprint tick consumes
stamina at 7/s (floored at 0); an active sprint (shift held with
stamina > 1) charges an additional unfloored 10/s whether or not the
player moves, so a moving sprint tick consumes 17/s and a stationary
sprint tick 10/s; with shift held but stamina ≤ 1 the sprint branch is
skipped and only the 7/s movement cost applies; a stationary non-sprint
tick consumes nothing. -/
theorem update_player_stamina_cases (dt : ℚ) (k : Keys) (mn : ℚ) (ww wh : ℕ) (p : Player) :
    ((k.shift = true ∧ p.stamina > 1) → (movementX k ≠ 0 ∨ movementY k ≠ 0) →
      (update_player dt k mn ww wh p).stamina = max 0 (p.stamina - dt * 17)) ∧
    ((k.shift = true ∧ p.stamina > 1) → ¬(movementX k ≠ 0 ∨ movementY k ≠ 0) →
      (update_player dt k mn ww wh p).stamina = p.stamina - dt * 10) ∧
    (¬(k.shift = true ∧ p.stamina > 1) → (movementX k ≠ 0 ∨ movementY k ≠ 0) →
      (update_player dt k mn ww wh p).stamina = max 0 (p.stamina - dt * 7)) ∧
    (¬(k.shift = true ∧ p.stamina > 1) → ¬(movementX k ≠ 0 ∨ movementY k ≠ 0) →
      (update_player dt k mn ww wh p).stamina = p.stamina) := by
  have key : ∀ q : ℚ, q - dt * 10 - dt * 7 = q - dt * 17 := fun q => by ring
  refine ⟨fun h1 h2 => ?_, fun h1 h2 => ?_, fun h1 h2 => ?_, fun h1 h2 => ?_⟩ <;>
    simp only [update_player] <;> simp [h1, h2, key]

/-- Witness for `update_player_stamina_cases`: a moving sprint tick from
full stamina. -/
theorem update_player_stamina_cases_witness :
    (update_player 1 keysSprintW 1 80 60 playerC6).stamina = 83 := by
  have h := (update_player_stamina_cases 1 keysSprintW 1 80 60 playerC6).1
    ⟨rfl, by norm_num [playerC6, MAX_STAMINA]⟩
    (Or.inr (by norm_num [movementY, keysSprintW]))
  rw [h, max_eq_right (by norm_num [playerC6, MAX_STAMINA])]
  norm_num [playerC6, MAX_STAMINA]

/-- C6 counterexample: with sprint active and the player moving, one
second of `update_player` consumes 17 stamina (100 → 83), not the 10
claimed; and with sprint held but no movement the tick still consumes 10
(100 → 90) though the claim says a non-moving player spends nothing. -/
theorem sprint_stamina_counterexample :
    (update_player 1 keysSprintW 1 80 60 playerC6).stamina = 83 ∧
    playerC6.stamina - 1 * 10 = 90 ∧
    (update_player 1 keysShiftOnly 1 80 60 playerC6).stamina = 90 ∧
    playerC6.stamina = 100 := by
  refine ⟨?_, by norm_num [playerC6, MAX_STAMINA], ?_, by norm_num [playerC6, MAX_STAMINA]⟩ <;>
    norm_num [update_player, keysSprintW, keysShiftOnly, playerC6,
      movementX, movementY, max_def, MAX_STAMINA]

theorem update_player_health_eq (dt : ℚ) (k : Keys) (mn : ℚ) (ww wh : ℕ) (p : Player) :
    (update_player dt k mn ww wh p).health = p.health := by
  simp only [update_player]
  split_ifs <;> rfl

theorem update_player_hunger_eq (dt : ℚ) (k : Keys) (mn : ℚ) (ww wh : ℕ) (p : Player) :
    (update_player dt k mn ww wh p).hunger = p.hunger := by
  simp only [update_player]
  split_ifs <;> rfl

theorem update_player_thirst_eq (dt : ℚ) (k : Keys) (mn : ℚ) (ww wh : ℕ) (p : Player) :
    (update_player dt k mn ww wh p).thirst = p.thirst := by
  simp only [update_player]
  split_ifs <;> rfl

theorem update_player_stamina_le (dt : ℚ) (k : Keys) (mn : ℚ) (ww wh : ℕ) (p : Player)
    (hdt : 0 ≤ dt) (hs : p.stamina ≤ MAX_STAMINA) :
    (update_player dt k mn ww wh p).stamina ≤ MAX_STAMINA := by
  have h100 : (0 : ℚ) ≤ MAX_STAMINA := by norm_num [MAX_STAMINA]
  simp only [update_player]
  split_ifs <;> (try dsimp only) <;>
    first
      | exact max_le h100 (by nlinarith)
      | nlinarith

theorem entLoop_health_le (dt : ℚ) (r : TickRand) (px py : ℚ) (hdt : 0 ≤ dt) :
    ∀ (i : ℕ) (es : List Entity) (hp : ℚ) (pz : Bool) (out : List Entity × ℚ × Bool),
      entLoop dt r px py i es hp pz = some out → out.2.1 ≤ hp := by
  intro i es
  induction es generalizing i with
  | nil =>
    intro hp pz out h
    simp only [entLoop, Option.some.injEq] at h
    rw [← h]
  | cons e rest ih =>
    intro hp pz out h
    simp only [entLoop] at h
    cases hE : e.update dt (r.entRand i) px py with
    | none => rw [hE] at h; exact absurd h (by simp)
    | some e' =>
      rw [hE] at h
      dsimp only at h
      cases hR : entLoop dt r px py (i + 1) rest
          (if r.collDist i < 20 then hp - 5 * dt else hp)
          (if r.collDist i < 20 ∧ (if r.collDist i < 20 then hp - 5 * dt else hp) ≤ 0
            then true else pz) with
      | none => rw [hR] at h; exact absurd h (by simp)
      | some out' =>
        rw [hR] at h
        dsimp only at h
        injection h with h2
        subst h2
        have hrec := ih (i + 1) _ _ _ hR
        refine le_trans hrec ?_
        split_ifs <;> nlinarith

theorem update_vital_bounds_step (g : Game) (dt : ℚ) (r : TickRand) (k : Keys) (g' : Game)
    (hdt : 0 ≤ dt) (h : g.update dt r k = some g')
    (h1 : g.player.health ≤ MAX_HEALTH) (h2 : g.player.stamina ≤ MAX_STAMINA)
    (h3 : 0 ≤ g.player.hunger) (h4 : 0 ≤ g.player.thirst) :
    g'.player.health ≤ MAX_HEALTH ∧ g'.player.stamina ≤ MAX_STAMINA ∧
    0 ≤ g'.player.hunger ∧ 0 ≤ g'.player.thirst := by
  unfold Game.update at h
  dsimp only at h
  set p := update_player dt k r.moveNorm g.world.w g.world.h g.player with hpdef
  cases hE : entLoop dt r p.x p.y 0 g.entities p.health g.paused with
  | none => rw [hE] at h; exact absurd h (by simp)
  | some out =>
    obtain ⟨ents, hp0, pz⟩ := out
    rw [hE] at h
    dsimp only at h
    have hhp0 : hp0 ≤ p.health :=
      entLoop_health_le dt r p.x p.y hdt 0 g.entities p.health g.paused (ents, hp0, pz) hE
    have hph : p.health = g.player.health := update_player_health_eq dt k r.moveNorm _ _ _
    have hhu : p.hunger = g.player.hunger := update_player_hunger_eq dt k r.moveNorm _ _ _
    have hth : p.thirst = g.player.thirst := update_player_thirst_eq dt k r.moveNorm _ _ _
    have hsl : p.stamina ≤ MAX_STAMINA := update_player_stamina_le dt k r.moveNorm _ _ _ hdt h2
    have hkey : hp0 ≤ g.player.health := hph ▸ hhp0
    injection h with h
    subst h
    have hmx : (0 : ℚ) ≤ MAX_HEALTH := by norm_num [MAX_HEALTH]
    refine ⟨?_, ?_, ?_, ?_⟩
    · dsimp only
      split_ifs <;> nlinarith
    · dsimp only
      split_ifs
      · exact min_le_left _ _
      · exact hsl
    · dsimp only
      rw [hhu]
      nlinarith
    · dsimp only
      rw [hth]
      nlinarith

/-- C3 (amended): over every completed sequence of simulation ticks with
non-negative elapsed times, the player's health never exceeds
`MAX_HEALTH`, stamina never exceeds `MAX_STAMINA`, and hunger and thirst
never drop below 0.  (The other half of the original claim is refuted by
`tick_vitals_escape_counterexample`: a tick can push health and stamina
below 0 and hunger/thirst above their maxima, since the code never clamps
them.) -/
theorem run_ticks_vital_bounds (steps : List (ℚ × TickRand × Keys)) (g g' : Game)
    (hdts : ∀ st ∈ steps, 0 ≤ st.1)
    (h : runTicks steps g = some g')
    (h1 : g.player.health ≤ MAX_HEALTH) (h2 : g.player.stamina ≤ MAX_STAMINA)
    (h3 : 0 ≤ g.player.hunger) (h4 : 0 ≤ g.player.thirst) :
    g'.player.health ≤ MAX_HEALTH ∧ g'.player.stamina ≤ MAX_STAMINA ∧
    0 ≤ g'.player.hunger ∧ 0 ≤ g'.player.thirst := by
  induction steps generalizing g with
  | nil =>
    simp only [runTicks, Option.some.injEq] at h
    rw [← h]
    exact ⟨h1, h2, h3, h4⟩
  | cons st rest ih =>
    obtain ⟨dt, r, k⟩ := st
    simp only [runTicks] at h
    cases hU : g.update dt r k with
    | none => rw [hU] at h; exact absurd h (by simp)
    | some g1 =>
      rw [hU] at h
      dsimp only at h
      have hdt : 0 ≤ dt := hdts (dt, r, k) (List.mem_cons_self _ _)
      obtain ⟨b1, b2, b3, b4⟩ := update_vital_bounds_step g dt r k g1 hdt hU h1 h2 h3 h4
      exact ih g1 (fun s hs => hdts s (List.mem_cons_of_mem _ hs)) h b1 b2 b3 b4

/-- Witness for `run_ticks_vital_bounds`: one one-second idle tick from a
fresh session keeps all four vitals inside their bounds. -/
theorem run_ticks_vital_bounds_witness :
    gameC3Next.player.health ≤ MAX_HEALTH ∧ gameC3Next.player.stamina ≤ MAX_STAMINA ∧
    0 ≤ gameC3Next.player.hunger ∧ 0 ≤ gameC3Next.player.thirst := by
  have hs : gameC3.update 1 tickRandC3 keysIdle = some gameC3Next := by
    cases ho : gameC3.update 1 tickRandC3 keysIdle with
    | none => exact absurd ho (by simp [Game.update, gameC3, tickRandC3, entLoop])
    | some gv => simp [gameC3Next, ho]
  refine run_ticks_vital_bounds [(1, tickRandC3, keysIdle)] gameC3 gameC3Next ?_ ?_ ?_ ?_ ?_ ?_
  · intro st hst
    simp only [List.mem_singleton] at hst
    rw [hst]
    norm_num
  · simp [runTicks, hs]
  · norm_num [gameC3, MAX_HEALTH]
  · norm_num [gameC3, MAX_STAMINA]
  · norm_num [gameC3]
  · norm_num [gameC3]

/-- C3 counterexample: one one-second tick of a session whose player has
hunger 100, thirst 100, health 1 and stamina 2 with shift held completes
and leaves hunger 100.5 > `MAX_HUNGER`, thirst 100.9 > `MAX_THIRST`,
health −0.5 < 0 and stamina −3 < 0: none of the four bounds claimed is
maintained by the code. -/
theorem tick_vitals_escape_counterexample :
    (gameHungry.update 1 tickRandC3 keysShiftOnly).isSome = true ∧
    gameHungryNext.player.hunger > MAX_HUNGER ∧
    gameHungryNext.player.thirst > MAX_THIRST ∧
    gameHungryNext.player.health < 0 ∧
    gameHungryNext.player.stamina < 0 := by
  refine ⟨by simp [Game.update, gameHungry, tickRandC3, entLoop], ?_, ?_, ?_, ?_⟩ <;>
    norm_num [gameHungryNext, Game.update, update_player, entLoop, gameHungry,
      tickRandC3, keysShiftOnly, movementX, movementY, clamp, qmod,
      MAX_STAMINA, MAX_HUNGER, MAX_THIRST, MAX_HEALTH, max_def, min_def]

/-- C7 (amended): an entity at *strictly positive* Euclidean distance
below 150 from the player, for which the lower-priority flee rule does not
fire (health ≥ 20 or the 30% roll fails), ends the tick's state-machine
evaluation in the Attack state with velocity equal to the normalized
direction toward the player scaled by 1.2× its base speed.  (The original
claim for every distance below 150 fails at distance exactly 0, where the
evaluation raises instead — `attack_trigger_counterexample`.) -/
theorem attack_trigger (e : Entity) (dt px py : ℚ) (r : EntRand)
    (hdist : r.dist * r.dist = (px - e.x) ^ 2 + (py - e.y) ^ 2)
    (hpos : 0 < r.dist) (hlt : r.dist < 150)
    (hnoflee : ¬(e.health < 20 ∧ r.fleeRoll < 3/10)) :
    e.update dt r px py = some
      { x := e.x + (px - e.x) / r.dist * (e.speed * (6/5)) * dt,
        y := e.y + (py - e.y) / r.dist * (e.speed * (6/5)) * dt,
        vx := (px - e.x) / r.dist * (e.speed * (6/5)),
        vy := (py - e.y) / r.dist * (e.speed * (6/5)),
        health := e.health, speed := e.speed, state := "attack",
        radius := e.radius } := by
  have hfleeIf : ∀ {α : Type} (a b : α),
      (if e.health < 20 ∧ r.fleeRoll < 3/10 then a else b) = b :=
    fun a b => if_neg hnoflee
  simp only [Entity.update]
  split_ifs <;>
    first
      | (simp_all; done)
      | (dsimp only [Option.map_some']
         simp only [hfleeIf]
         try simp_all)

/-- Witness for `attack_trigger`: a creature at the origin, the player at
(30, 40), distance 50. -/
theorem attack_trigger_witness :
    entAtk.update 1 rFifty 30 40 = some
      { x := 144/5, y := 192/5, vx := 144/5, vy := 192/5,
        health := 50, speed := 40, state := "attack", radius := 10 } := by
  have h := attack_trigger entAtk 1 30 40 rFifty (by norm_num [entAtk, rFifty])
    (by norm_num [rFifty]) (by norm_num [rFifty]) (by norm_num [entAtk, rFifty])
  rw [h]
  norm_num [entAtk, rFifty]

/-- C7 counterexample: a creature exactly at the player's position has
Euclidean distance 0 < 150 and no flee condition (health 50), yet the
tick's evaluation raises (returns `none`) in the proximity branch rather
than producing an Attack-state successor. -/
theorem attack_trigger_counterexample : entC7.update 1 rZeroC7 7 3 = none := by
  norm_num [Entity.update, entC7, rZeroC7]

/-- C9: when the player's position coincides with the entity's, the
Euclidean distance (characterized by `hdist`) is zero and the proximity
branch's division by it raises, so `Entity.update` yields no successor
state; for every strictly positive distance below 150 the update is
well-defined. -/
theorem entity_update_totality (e : Entity) (dt px py : ℚ) (r : EntRand)
    (hdist : r.dist * r.dist = (px - e.x) ^ 2 + (py - e.y) ^ 2) :
    ((px = e.x ∧ py = e.y) → e.update dt r px py = none) ∧
    (0 < r.dist → r.dist < 150 → (e.update dt r px py).isSome = true) := by
  constructor
  · rintro ⟨hx, hy⟩
    have h0 : r.dist = 0 := by
      have hsq : r.dist * r.dist = 0 := by rw [hdist, hx, hy]; ring
      exact mul_self_eq_zero.1 hsq
    norm_num [Entity.update, h0]
  · intro hpos hlt
    simp only [Entity.update]
    split_ifs <;> simp_all

/-- Witness for `entity_update_totality`: the coinciding case raises, the
3-4-5 case succeeds. -/
theorem entity_update_totality_witness :
    entC9.update 1 rZero 5 5 = none ∧ (entC9.update 1 rFive 8 9).isSome = true := by
  constructor
  · exact (entity_update_totality entC9 1 5 5 rZero (by norm_num [entC9, rZero])).1 ⟨rfl, rfl⟩
  · exact (entity_update_totality entC9 1 8 9 rFive (by norm_num [entC9, rFive])).2
      (by norm_num [rFive]) (by norm_num [rFive])

theorem memberItems_eq_false_iff (i : String) (l : List Item) :
    memberItems i l = false ↔ i ∉ l.map Item.id := by
  induction l with
  | nil => simp [memberItems]
  | cons it rest ih =>
    simp only [memberItems, Bool.or_eq_false_iff, decide_eq_false_iff_not, ih,
      List.map_cons, List.mem_cons]
    constructor
    · rintro ⟨hh1, hh2⟩ (hc | hc)
      · exact hh1 hc.symm
      · exact hh2 hc
    · intro hh
      exact ⟨fun hc => hh (Or.inl hc.symm), fun hc => hh (Or.inr hc)⟩

theorem stockItems_of_not_member (i : String) (l : List Item)
    (h : memberItems i l = false) : stockItems i l = 0 := by
  induction l with
  | nil => simp [stockItems]
  | cons it rest ih =>
    have h1 : it.id ≠ i := by
      intro hc
      simp [memberItems, hc] at h
    have h2 : memberItems i rest = false := by
      cases hmr : memberItems i rest
      · rfl
      · simp [memberItems, hmr] at h
    rw [show stockItems i (it :: rest) = stockItems i rest from by simp [stockItems, h1]]
    exact ih h2

theorem stockItems_append_single (j : String) (it : Item) (l : List Item) :
    stockItems j (l ++ [it]) =
      if memberItems j l = true then stockItems j l
      else if it.id = j then it.amount else 0 := by
  induction l with
  | nil => simp [stockItems, memberItems]
  | cons x rest ih =>
    by_cases hx : x.id = j
    · simp [stockItems, memberItems, hx]
    · simp [stockItems, memberItems, hx, ih]

theorem memberItems_append_single (j : String) (it : Item) (l : List Item) :
    memberItems j (l ++ [it]) = (memberItems j l || decide (it.id = j)) := by
  induction l with
  | nil => simp [memberItems]
  | cons x rest ih => simp [memberItems, ih, Bool.or_assoc]

theorem nodup_ids_append (l : List Item) (it : Item)
    (hnd : (l.map Item.id).Nodup) (h : memberItems it.id l = false) :
    ((l ++ [it]).map Item.id).Nodup := by
  rw [List.map_append]
  simp only [List.map_cons, List.map_nil]
  rw [List.nodup_append]
  refine ⟨hnd, List.nodup_singleton _, ?_⟩
  intro x hx hx1
  simp only [List.mem_singleton] at hx1
  subst hx1
  exact (memberItems_eq_false_iff _ _).1 h hx

theorem hasItems_spec (i : String) (a : ℤ) (l : List Item) (h : hasItems i a l = true) :
    memberItems i l = true ∧ a ≤ stockItems i l := by
  induction l with
  | nil => simp [hasItems] at h
  | cons it rest ih =>
    by_cases hid : it.id = i
    · simp only [hasItems, hid, if_true, ite_true, decide_eq_true_eq] at h
      simp [memberItems, stockItems, hid, h]
    · simp only [hasItems, hid, if_false, ite_false] at h
      obtain ⟨h1, h2⟩ := ih h
      simp [memberItems, stockItems, hid, h1, h2]

theorem addAux_eq_none_iff (i : String) (a : ℤ) (l : List Item) :
    addAux i a l = none ↔ memberItems i l = false := by
  induction l with
  | nil => simp [addAux, memberItems]
  | cons it rest ih =>
    by_cases hid : it.id = i
    · simp [addAux, memberItems, hid]
    · simp [addAux, memberItems, hid, ih]

theorem addAux_some_spec (i : String) (a : ℤ) (l l' : List Item)
    (h : addAux i a l = some l') :
    stockItems i l' = stockItems i l + a ∧
    (∀ j, j ≠ i → stockItems j l' = stockItems j l) ∧
    (∀ j, memberItems j l' = memberItems j l) ∧
    l'.map Item.id = l.map Item.id ∧
    l'.length = l.length := by
  induction l generalizing l' with
  | nil => simp [addAux] at h
  | cons it rest ih =>
    by_cases hid : it.id = i
    · subst hid
      have hh : addAux it.id a (it :: rest) =
          some ({ it with amount := it.amount + a } :: rest) := by
        simp [addAux]
      rw [hh, Option.some.injEq] at h
      subst h
      refine ⟨by simp [stockItems], fun j hj => ?_, fun j => ?_, by simp, by simp⟩
      · have hne : it.id ≠ j := fun hc => hj hc.symm
        simp [stockItems, hne]
      · simp [memberItems]
    · simp only [addAux, hid, if_false, ite_false] at h
      cases haux : addAux i a rest with
      | none => rw [haux] at h; simp at h
      | some rest' =>
        rw [haux] at h
        simp only [Option.map_some', Option.some.injEq] at h
        subst h
        obtain ⟨s1, s2, s3, s4, s5⟩ := ih rest' haux
        refine ⟨by simp [stockItems, hid, s1], fun j hj => ?_, fun j => ?_,
          by simp [s4], by simp [s5]⟩
        · by_cases hjit : it.id = j <;> simp [stockItems, hjit, s2 j hj]
        · by_cases hjit : it.id = j <;> simp [memberItems, hjit, s3 j]

theorem removeAux_false_eq (i : String) (a : ℤ) (l : List Item)
    (h : (removeAux i a l).1 = false) : (removeAux i a l).2 = l := by
  induction l with
  | nil => rfl
  | cons it rest ih =>
    by_cases hid : it.id = i
    · by_cases hlt : it.amount < a
      · simp [removeAux, hid, hlt]
      · by_cases hz : it.amount - a = 0 <;> simp [removeAux, hid, hlt, hz] at h
    · simp only [removeAux, hid, if_false, ite_false] at h ⊢
      simp [ih h]

theorem removeAux_true_of (i : String) (a : ℤ) (l : List Item)
    (hm : memberItems i l = true) (hle : a ≤ stockItems i l) :
    (removeAux i a l).1 = true := by
  induction l with
  | nil => simp [memberItems] at hm
  | cons it rest ih =>
    by_cases hid : it.id = i
    · have hst : stockItems i (it :: rest) = it.amount := by simp [stockItems, hid]
      rw [hst] at hle
      have hnlt : ¬it.amount < a := not_lt.2 hle
      by_cases hz : it.amount - a = 0 <;> simp [removeAux, hid, hnlt, hz]
    · have hm' : memberItems i rest = true := by simpa [memberItems, hid] using hm
      have hle' : a ≤ stockItems i rest := by
        have hst : stockItems i (it :: rest) = stockItems i rest := by
          simp [stockItems, hid]
        rw [hst] at hle
        exact hle
      simp only [removeAux, hid, if_false, ite_false]
      exact ih hm' hle'

theorem removeAux_ids_sublist (i : String) (a : ℤ) (l : List Item) :
    ((removeAux i a l).2.map Item.id).Sublist (l.map Item.id) := by
  induction l with
  | nil => simp [removeAux]
  | cons it rest ih =>
    by_cases hid : it.id = i
    · by_cases hlt : it.amount < a
      · simp [removeAux, hid, hlt]
      · by_cases hz : it.amount - a = 0
        · simp only [removeAux, hid, hlt, hz, if_true, ite_true, if_false, ite_false,
            List.map_cons]
          exact List.sublist_cons_self _ _
        · simp [removeAux, hid, hlt, hz]
    · simp only [removeAux, hid, if_false, ite_false, List.map_cons]
      exact List.Sublist.cons₂ _ ih

theorem removeAux_true_spec (i : String) (a : ℤ) (l : List Item)
    (hnd : (l.map Item.id).Nodup) (h : (removeAux i a l).1 = true) :
    stockItems i (removeAux i a l).2 = stockItems i l - a ∧
    a ≤ stockItems i l ∧
    (∀ j, j ≠ i → stockItems j (removeAux i a l).2 = stockItems j l) ∧
    (∀ j, j ≠ i → memberItems j (removeAux i a l).2 = memberItems j l) ∧
    ((removeAux i a l).2.map Item.id).Nodup ∧
    (stockItems i l - a = 0 →
      memberItems i (removeAux i a l).2 = false ∧
      l.length = (removeAux i a l).2.length + 1) ∧
    (stockItems i l - a ≠ 0 →
      memberItems i (removeAux i a l).2 = true ∧
      (removeAux i a l).2.length = l.length) := by
  induction l with
  | nil => simp [removeAux] at h
  | cons it rest ih =>
    simp only [List.map_cons, List.nodup_cons] at hnd
    obtain ⟨hnotin, hndrest⟩ := hnd
    by_cases hid : it.id = i
    · have hmem : memberItems i rest = false := by
        rw [memberItems_eq_false_iff]
        rw [hid] at hnotin
        exact hnotin
      have hstock : stockItems i rest = 0 := stockItems_of_not_member _ _ hmem
      by_cases hlt : it.amount < a
      · simp [removeAux, hid, hlt] at h
      · by_cases hz : it.amount - a = 0
        · simp only [removeAux, hid, if_true, ite_true, hlt, if_false, ite_false, hz]
          refine ⟨?_, ?_, ?_, ?_, ?_, ?_, ?_⟩
          · simp [stockItems, hid, hstock]
            omega
          · simp [stockItems, hid]
            omega
          · intro j hj
            by_cases hjit : it.id = j
            · exact absurd (hjit ▸ hid) hj
            · simp [stockItems, hjit]
          · intro j hj
            by_cases hjit : it.id = j
            · exact absurd (hjit ▸ hid) hj
            · simp [memberItems, hjit]
          · exact hndrest
          · intro _
            exact ⟨hmem, by simp⟩
          · intro hc
            exact absurd (by simp [stockItems, hid]; omega) hc
        · simp only [removeAux, hid, if_true, ite_true, hlt, if_false, ite_false, hz]
          refine ⟨?_, ?_, ?_, ?_, ?_, ?_, ?_⟩
          · simp [stockItems, hid]
          · simp [stockItems, hid]
            omega
          · intro j hj
            by_cases hjit : it.id = j
            · exact absurd (hjit ▸ hid) hj
            · simp [stockItems, hjit, Ne.symm hj]
          · intro j hj
            by_cases hjit : it.id = j
            · exact absurd (hjit ▸ hid) hj
            · simp [memberItems, hjit, Ne.symm hj]
          · simp only [List.map_cons, List.nodup_cons]
            refine ⟨?_, hndrest⟩
            exact hid ▸ hnotin
          · intro hc
            exact absurd hc (by simp [stockItems, hid]; omega)
          · intro _
            simp [memberItems, hid]
    · simp only [removeAux, hid, if_false, ite_false] at h ⊢
      obtain ⟨s1, s2, s3, s4, s5, s6, s7⟩ := ih hndrest h
      have hstockc : stockItems i (it :: rest) = stockItems i rest := by
        simp [stockItems, hid]
      refine ⟨?_, ?_, ?_, ?_, ?_, ?_, ?_⟩
      · simp [stockItems, hid, hstockc, s1]
      · rw [hstockc]; exact s2
      · intro j hj
        by_cases hjit : it.id = j <;> simp [stockItems, hjit, s3 j hj]
      · intro j hj
        by_cases hjit : it.id = j <;> simp [memberItems, hjit, s4 j hj]
      · simp only [List.map_cons, List.nodup_cons]
        refine ⟨?_, s5⟩
        intro hin
        exact hnotin ((removeAux_ids_sublist i a rest).subset hin)
      · intro hz
        rw [hstockc] at hz
        obtain ⟨m1, m2⟩ := s6 hz
        exact ⟨by simp [memberItems, hid, m1], by simp [m2]⟩
      · intro hz
        rw [hstockc] at hz
        obtain ⟨m1, m2⟩ := s7 hz
        exact ⟨by simp [memberItems, hid, m1], by simp [m2]⟩

theorem applyOp_spec (inv : Inventory) (op : InvOp) (i : String)
    (hnd : (inv.items.map Item.id).Nodup) :
    stockItems i ((applyOp inv op).2).items =
      stockItems i inv.items + opDelta i op (applyOp inv op).1 ∧
    (((applyOp inv op).2).items.map Item.id).Nodup := by
  cases op with
  | addOp j n a =>
    simp only [applyOp, Inventory.add]
    cases haux : addAux j a inv.items with
    | some l' =>
      obtain ⟨s1, s2, s3, s4, s5⟩ := addAux_some_spec j a inv.items l' haux
      simp only [haux]
      constructor
      · by_cases hj : j = i
        · subst hj
          simp [opDelta, s1]
        · have hs := s2 i (fun hc => hj hc.symm)
          simp [opDelta, hj, hs]
      · rw [s4]
        exact hnd
    | none =>
      have hmem : memberItems j inv.items = false := (addAux_eq_none_iff j a inv.items).1 haux
      simp only [haux]
      split_ifs with hcap
      · simp [opDelta, hnd]
      · constructor
        · rw [stockItems_append_single]
          by_cases hj : j = i
          · subst hj
            rw [hmem]
            simp [opDelta, stockItems_of_not_member _ _ hmem]
          · by_cases hmi : memberItems i inv.items = true
            · simp [hmi, opDelta, hj]
            · have hmi' : memberItems i inv.items = false := by
                cases hc : memberItems i inv.items
                · rfl
                · exact absurd hc hmi
              rw [hmi']
              simp [opDelta, hj, stockItems_of_not_member _ _ hmi']
        · exact nodup_ids_append inv.items ⟨j, n, a⟩ hnd hmem
  | removeOp j a =>
    simp only [applyOp, Inventory.remove]
    cases hok : (removeAux j a inv.items).1 with
    | false =>
      have hitems := removeAux_false_eq j a inv.items hok
      simp [opDelta, hok, hitems, hnd]
    | true =>
      obtain ⟨s1, s2, s3, s4, s5, s6, s7⟩ := removeAux_true_spec j a inv.items hnd hok
      constructor
      · by_cases hj : j = i
        · subst hj
          simp [opDelta, hok, s1]
          ring
        · have hs := s3 i (fun hc => hj hc.symm)
          simp [opDelta, hok, hj, hs]
      · exact s5

theorem runNet_stock (i : String) (inv : Inventory) (ops : List InvOp)
    (hnd : (inv.items.map Item.id).Nodup) :
    stockItems i ((runNet i inv ops).1).items =
      stockItems i inv.items + (runNet i inv ops).2 := by
  induction ops generalizing inv with
  | nil => simp [runNet]
  | cons op rest ih =>
    obtain ⟨h1, h2⟩ := applyOp_spec inv op i hnd
    simp only [runNet]
    rw [ih (applyOp inv op).2 h2, h1]
    ring

/-- C8: over every replayed `add`/`remove` history on a dict-shaped
inventory, the final stock of a tracked id equals its initial stock plus
the sum of successfully added amounts minus the sum of successfully
removed amounts; a successful `remove` subtracts exactly its amount, never
exceeds the prior stock and never leaves a nonnegative stock negative,
while a failed `remove` leaves the inventory untouched; `add` always
succeeds on an existing id, and on a new id at capacity fails with no
mutation. -/
theorem inventory_ledger :
    (∀ (i : String) (inv : Inventory) (ops : List InvOp),
      (inv.items.map Item.id).Nodup →
      ((runNet i inv ops).1).stock i = inv.stock i + (runNet i inv ops).2) ∧
    (∀ (inv : Inventory) (i : String) (a : ℤ),
      (inv.items.map Item.id).Nodup →
      ((inv.remove i a).1 = true →
        (inv.remove i a).2.stock i = inv.stock i - a ∧ a ≤ inv.stock i ∧
        (0 ≤ inv.stock i → 0 ≤ (inv.remove i a).2.stock i)) ∧
      ((inv.remove i a).1 = false → (inv.remove i a).2 = inv)) ∧
    (∀ (inv : Inventory) (i n : String) (a : ℤ),
      (memberItems i inv.items = true → (inv.add i n a).1 = true) ∧
      (memberItems i inv.items = false → inv.capacity ≤ inv.items.length →
        inv.add i n a = (false, inv))) := by
  refine ⟨fun i inv ops hnd => runNet_stock i inv ops hnd, ?_, ?_⟩
  · intro inv i a hnd
    constructor
    · intro hok
      obtain ⟨s1, s2, s3, s4, s5, s6, s7⟩ := removeAux_true_spec i a inv.items hnd hok
      refine ⟨s1, s2, fun _ => ?_⟩
      show 0 ≤ stockItems i (removeAux i a inv.items).2
      rw [s1]
      omega
    · intro hok
      have hitems := removeAux_false_eq i a inv.items hok
      simp [Inventory.remove, hitems]
  · intro inv i n a
    constructor
    · intro hmem
      cases haux : addAux i a inv.items with
      | none => exact absurd ((addAux_eq_none_iff i a inv.items).1 haux) (by simp [hmem])
      | some l' => simp [Inventory.add, haux]
    · intro hmem hcap
      have haux : addAux i a inv.items = none := (addAux_eq_none_iff i a inv.items).2 hmem
      simp [Inventory.add, haux, hcap]

/-- Witness for `inventory_ledger`: a five-unit wood stack, plus-2 then
minus-3 then a failing minus-99. -/
theorem inventory_ledger_witness :
    ((runNet "wood" invWitness opsWitness).1).stock "wood" =
      invWitness.stock "wood" + (runNet "wood" invWitness opsWitness).2 ∧
    (invWitness.remove "wood" 3).1 = true ∧
    (invWitness.remove "wood" 3).2.stock "wood" = invWitness.stock "wood" - 3 ∧
    (invWitness.add "wood" "Wood" 2).1 = true := by
  refine ⟨inventory_ledger.1 "wood" invWitness opsWitness (by decide), by decide,
    ((inventory_ledger.2.1 invWitness "wood" 3 (by decide)).1 (by decide)).1,
    (inventory_ledger.2.2 invWitness "wood" "Wood" 2).1 (by decide)⟩

theorem remove_add_restore (inv : Inventory) (i n : String) (a : ℤ)
    (hnd : (inv.items.map Item.id).Nodup)
    (hlen : inv.items.length ≤ inv.capacity)
    (hhas : inv.has i a = true) :
    (∀ j, (((inv.remove i a).2).add i n a).2.stock j = inv.stock j) ∧
    (∀ j, memberItems j ((((inv.remove i a).2).add i n a).2).items =
      memberItems j inv.items) := by
  obtain ⟨hmem, hle⟩ := hasItems_spec i a inv.items hhas
  have hok : (removeAux i a inv.items).1 = true := removeAux_true_of i a inv.items hmem hle
  obtain ⟨s1, s2, s3, s4, s5, s6, s7⟩ := removeAux_true_spec i a inv.items hnd hok
  have hinv1 : (inv.remove i a).2 = { inv with items := (removeAux i a inv.items).2 } := rfl
  by_cases hz : stockItems i inv.items - a = 0
  · obtain ⟨m1, m2⟩ := s6 hz
    have haux : addAux i a (removeAux i a inv.items).2 = none :=
      (addAux_eq_none_iff i a _).2 m1
    have hcap : ¬inv.capacity ≤ (removeAux i a inv.items).2.length := by omega
    have hadd : ((inv.remove i a).2).add i n a =
        (true, { inv with items := (removeAux i a inv.items).2 ++ [⟨i, n, a⟩] }) := by
      rw [hinv1]
      simp [Inventory.add, haux, hcap]
    constructor
    · intro j
      rw [hadd]
      show stockItems j ((removeAux i a inv.items).2 ++ [⟨i, n, a⟩]) = stockItems j inv.items
      rw [stockItems_append_single]
      by_cases hj : j = i
      · subst hj
        rw [m1]
        have hstock : stockItems j inv.items = a := by omega
        simp [hstock]
      · have hji : ¬((⟨i, n, a⟩ : Item).id = j) := fun hc => hj (show j = i from hc.symm)
        by_cases hmj : memberItems j (removeAux i a inv.items).2 = true
        · rw [if_pos hmj]
          exact s3 j hj
        · have hmj' : memberItems j (removeAux i a inv.items).2 = false := by
            cases hc : memberItems j (removeAux i a inv.items).2
            · rfl
            · exact absurd hc hmj
          rw [hmj']
          have hmjo : memberItems j inv.items = false := by
            rw [← s4 j hj]
            exact hmj'
          simp only [if_false, Bool.false_eq_true, ite_false, hji, ite_eq_right_iff]
          rw [stockItems_of_not_member j inv.items hmjo]
    · intro j
      rw [hadd]
      show memberItems j ((removeAux i a inv.items).2 ++ [⟨i, n, a⟩]) = memberItems j inv.items
      rw [memberItems_append_single]
      by_cases hj : j = i
      · subst hj
        simp [m1, hmem]
      · have hji : ¬((⟨i, n, a⟩ : Item).id = j) := fun hc => hj (show j = i from hc.symm)
        simp [hji, s4 j hj]
  · obtain ⟨m1, m2⟩ := s7 hz
    have hsome : ∃ l2, addAux i a (removeAux i a inv.items).2 = some l2 := by
      cases haux : addAux i a (removeAux i a inv.items).2 with
      | none => exact absurd ((addAux_eq_none_iff i a _).1 haux) (by simp [m1])
      | some l2 => exact ⟨l2, rfl⟩
    obtain ⟨l2, haux⟩ := hsome
    obtain ⟨t1, t2, t3, t4, t5⟩ := addAux_some_spec i a _ l2 haux
    have hadd : ((inv.remove i a).2).add i n a = (true, { inv with items := l2 }) := by
      rw [hinv1]
      simp [Inventory.add, haux]
    constructor
    · intro j
      rw [hadd]
      show stockItems j l2 = stockItems j inv.items
      by_cases hj : j = i
      · subst hj
        rw [t1, s1]
        ring
      · rw [t2 j hj, s3 j hj]
    · intro j
      rw [hadd]
      show memberItems j l2 = memberItems j inv.items
      by_cases hj : j = i
      · subst hj
        rw [t3, m1, hmem]
      · rw [t3, s4 j hj]

/-- C1 (amended): a craft that fails — unknown recipe, insufficient
materials, or structure placement conflict — leaves the world unchanged
and the inventory with the same set of ids and the same per-id amounts as
before the attempt; in the placement-failure case every consumed resource
amount is refunded in full under its own id.  (The original claim's "same
display names" is refuted by `craft_refund_renames_counterexample`: a
fully consumed stack is re-created by the refund with `capitalize(id)` as
its name, which can differ from the original display name.) -/
theorem craft_failure_restores (g : Game) (rid : String)
    (hnd : (g.player.inventory.items.map Item.id).Nodup)
    (hlen : g.player.inventory.items.length ≤ g.player.inventory.capacity)
    (hfail : (g.craft rid).1 = false) :
    (g.craft rid).2.world = g.world ∧
    (∀ i, (g.craft rid).2.player.inventory.stock i = g.player.inventory.stock i) ∧
    (∀ i, memberItems i (g.craft rid).2.player.inventory.items =
      memberItems i g.player.inventory.items) := by
  by_cases h1 : rid = "wooden_spear"
  · subst h1
    by_cases hhas : ([(("wood" : String), (3 : ℤ)), ("stone", 1)].all
        (fun pr => g.player.inventory.has pr.1 pr.2)) = true
    · exfalso
      have hTrue : (g.craft "wooden_spear").1 = true := by
        simp [Game.craft, RECIPES, hhas]
      rw [hTrue] at hfail
      exact absurd hfail (by simp)
    · have hres : g.craft "wooden_spear" = (false, g) := by
        simp [Game.craft, RECIPES, hhas]
      rw [hres]
      exact ⟨rfl, fun i => rfl, fun i => rfl⟩
  · by_cases h2 : rid = "campfire"
    · subst h2
      by_cases hhas : ([(("wood" : String), (5 : ℤ))].all
          (fun pr => g.player.inventory.has pr.1 pr.2)) = true
      · have hw : g.player.inventory.has "wood" 5 = true := by simpa using hhas
        cases hpl : (g.world.place_structure ⌊g.player.x / TILE_SIZE⌋
            ⌊g.player.y / TILE_SIZE⌋ "campfire").1 with
        | true =>
          exfalso
          have hTrue : (g.craft "campfire").1 = true := by
            simp [Game.craft, RECIPES, hhas, hpl]
          rw [hTrue] at hfail
          exact absurd hfail (by simp)
        | false =>
          have hres : g.craft "campfire" = (false,
              { g with player := { g.player with inventory :=
                (((g.player.inventory.remove "wood" 5).2).add "wood"
                  (pyCapitalize "wood") 5).2 } }) := by
            simp [Game.craft, RECIPES, hhas, hpl]
          rw [hres]
          obtain ⟨r1, r2⟩ := remove_add_restore g.player.inventory "wood"
            (pyCapitalize "wood") 5 hnd hlen hw
          exact ⟨rfl, r1, r2⟩
      · have hres : g.craft "campfire" = (false, g) := by
          simp [Game.craft, RECIPES, hhas]
        rw [hres]
        exact ⟨rfl, fun i => rfl, fun i => rfl⟩
    · by_cases h3 : rid = "stone_axe"
      · subst h3
        by_cases hhas : ([(("wood" : String), (2 : ℤ)), ("stone", 3)].all
            (fun pr => g.player.inventory.has pr.1 pr.2)) = true
        · exfalso
          have hTrue : (g.craft "stone_axe").1 = true := by
            simp [Game.craft, RECIPES, hhas]
          rw [hTrue] at hfail
          exact absurd hfail (by simp)
        · have hres : g.craft "stone_axe" = (false, g) := by
            simp [Game.craft, RECIPES, hhas]
          rw [hres]
          exact ⟨rfl, fun i => rfl, fun i => rfl⟩
      · by_cases h4 : rid = "wooden_shack"
        · subst h4
          by_cases hhas : ([(("wood" : String), (20 : ℤ))].all
              (fun pr => g.player.inventory.has pr.1 pr.2)) = true
          · have hw : g.player.inventory.has "wood" 20 = true := by simpa using hhas
            cases hpl : (g.world.place_structure ⌊g.player.x / TILE_SIZE⌋
                ⌊g.player.y / TILE_SIZE⌋ "shack").1 with
            | true =>
              exfalso
              have hTrue : (g.craft "wooden_shack").1 = true := by
                simp [Game.craft, RECIPES, hhas, hpl]
              rw [hTrue] at hfail
              exact absurd hfail (by simp)
            | false =>
              have hres : g.craft "wooden_shack" = (false,
                  { g with player := { g.player with inventory :=
                    (((g.player.inventory.remove "wood" 20).2).add "wood"
                      (pyCapitalize "wood") 20).2 } }) := by
                simp [Game.craft, RECIPES, hhas, hpl]
              rw [hres]
              obtain ⟨r1, r2⟩ := remove_add_restore g.player.inventory "wood"
                (pyCapitalize "wood") 20 hnd hlen hw
              exact ⟨rfl, r1, r2⟩
          · have hres : g.craft "wooden_shack" = (false, g) := by
              simp [Game.craft, RECIPES, hhas]
            rw [hres]
            exact ⟨rfl, fun i => rfl, fun i => rfl⟩
        · have hres : g.craft rid = (false, g) := by
            simp [Game.craft, RECIPES, h1, h2, h3, h4]
          rw [hres]
          exact ⟨rfl, fun i => rfl, fun i => rfl⟩

/-- C1 counterexample: crafting a campfire on an occupied tile fails and
refunds the five wood, but the refunded stack's display name is the
capitalised id `"Wood"`, not the original `"Lumber"` — the inventory is
not byte-for-byte identical after the failed craft. -/
theorem craft_refund_renames_counterexample :
    (gameC1.craft "campfire").1 = false ∧
    gameC1.player.inventory.items = [⟨"wood", "Lumber", 5⟩] ∧
    (gameC1.craft "campfire").2.player.inventory.items = [⟨"wood", "Wood", 5⟩] := by
  have hfloor : (⌊(0 : ℚ) / TILE_SIZE⌋ : ℤ) = 0 := by norm_num [TILE_SIZE]
  have hcap : pyCapitalize "wood" = "Wood" := by decide
  have hne : ("campfire".isEmpty) = false := by decide
  refine ⟨?_, rfl, ?_⟩ <;>
    simp [Game.craft, RECIPES, gameC1, invLumber, worldBuilt, Inventory.has,
      hasItems, Inventory.remove, removeAux, Inventory.add, addAux,
      World.place_structure, World.get_tile, World.in_bounds, pyTruthy,
      hfloor, hcap, hne, TILE_SIZE]

/-- Witness for `craft_failure_restores`: the failing campfire craft of
`gameC1` preserves the world, the wood stock and the id set. -/
theorem craft_failure_restores_witness :
    (gameC1.craft "campfire").2.world = gameC1.world ∧
    (gameC1.craft "campfire").2.player.inventory.stock "wood" =
      gameC1.player.inventory.stock "wood" ∧
    memberItems "wood" (gameC1.craft "campfire").2.player.inventory.items =
      memberItems "wood" gameC1.player.inventory.items := by
  have hfail : (gameC1.craft "campfire").1 = false := by
    have hfloor : (⌊(0 : ℚ) / TILE_SIZE⌋ : ℤ) = 0 := by norm_num [TILE_SIZE]
    have hne : ("campfire".isEmpty) = false := by decide
    simp [Game.craft, RECIPES, gameC1, invLumber, worldBuilt, Inventory.has,
      hasItems, Inventory.remove, removeAux, Inventory.add, addAux,
      World.place_structure, World.get_tile, World.in_bounds, pyTruthy,
      hfloor, hne, TILE_SIZE]
  obtain ⟨w1, w2, w3⟩ := craft_failure_restores gameC1 "campfire"
    (by decide) (by decide) hfail
  exact ⟨w1, w2 "wood", w3 "wood"⟩

theorem list_reindex {α : Type} (l : List α) (d : α) :
    (List.range l.length).map (fun i => l.getD i d) = l := by
  apply List.ext_getElem
  · simp
  · intro i h1 h2
    simp [List.getD_eq_getElem?_getD, List.getElem?_eq_getElem h2]

theorem tilesExpand (wd : World) (hwf : wd.wf) :
    ((List.range wd.w).map fun x => (List.range wd.h).map fun y =>
      (wd.tiles.getD x []).getD y default) = wd.tiles := by
  obtain ⟨hl, hc⟩ := hwf
  have step1 : ∀ x ∈ List.range wd.w,
      ((List.range wd.h).map fun y => (wd.tiles.getD x []).getD y default) =
      wd.tiles.getD x [] := by
    intro x hx
    have hxl : x < wd.tiles.length := hl ▸ List.mem_range.1 hx
    have hcol : wd.tiles.getD x [] = wd.tiles[x] := by
      simp [List.getD_eq_getElem?_getD, List.getElem?_eq_getElem hxl]
    have hlencol : (wd.tiles.getD x []).length = wd.h := by
      rw [hcol]
      exact hc _ (List.getElem_mem hxl)
    conv_lhs => rw [← hlencol]
    exact list_reindex _ _
  rw [List.map_congr_left step1]
  conv_lhs => rw [show wd.w = wd.tiles.length from hl.symm]
  exact list_reindex wd.tiles []

theorem from_dict_to_dict (wd : World) (hwf : wd.wf) :
    World.from_dict wd.to_dict = wd := by
  show World.from_dict ⟨wd.w, wd.h, _⟩ = wd
  unfold World.from_dict
  have houter := tilesExpand wd hwf
  dsimp only [World.to_dict]
  rw [houter, houter]

theorem dictInsert_fresh (acc : List Item) (it : Item)
    (h : ∀ x ∈ acc, x.id ≠ it.id) : dictInsert acc it = acc ++ [it] := by
  induction acc with
  | nil => rfl
  | cons x rest ih =>
    have hx : x.id ≠ it.id := h x (List.mem_cons_self _ _)
    simp only [dictInsert, hx, if_false, ite_false]
    rw [ih (fun y hy => h y (List.mem_cons_of_mem _ hy))]
    simp

theorem foldl_dictInsert_fresh (l : List Item) :
    ∀ acc : List Item,
      (∀ x ∈ acc, ∀ y ∈ l, x.id ≠ y.id) → (l.map Item.id).Nodup →
      l.foldl dictInsert acc = acc ++ l := by
  induction l with
  | nil => intro acc _ _; simp
  | cons it rest ih =>
    intro acc hdisj hnd
    simp only [List.map_cons, List.nodup_cons] at hnd
    simp only [List.foldl_cons]
    rw [dictInsert_fresh acc it (fun x hx => hdisj x hx it (List.mem_cons_self _ _))]
    rw [ih (acc ++ [it]) ?_ hnd.2]
    · simp
    · intro x hx y hy
      rcases List.mem_append.1 hx with hx' | hx'
      · exact hdisj x hx' y (List.mem_cons_of_mem _ hy)
      · simp only [List.mem_singleton] at hx'
        subst hx'
        intro hcontra
        exact hnd.1 (hcontra ▸ List.mem_map_of_mem Item.id hy)

theorem from_list_to_list (inv : Inventory)
    (hnd : (inv.items.map Item.id).Nodup) (hcap : inv.capacity = 30) :
    Inventory.from_list inv.to_list = inv := by
  unfold Inventory.from_list Inventory.to_list
  rw [foldl_dictInsert_fresh inv.items [] (by simp) hnd]
  obtain ⟨items, capacity⟩ := inv
  simp only at hcap
  simp [hcap]

/-- C4: for every session whose state satisfies the representation
invariants the program maintains (well-formed grid, duplicate-free
inventory ids, the constructor capacity 30), `save` followed immediately
by `load` reproduces the world tile grid exactly, the player's position,
four vital stats, inventory contents and equipped id exactly, the
time-of-day exactly, and every entity's position and health exactly, with
entity velocity and behavior state reset to zero and Idle. -/
theorem save_load_roundtrip (g : Game)
    (hwf : g.world.wf)
    (hnd : (g.player.inventory.items.map Item.id).Nodup)
    (hcap : g.player.inventory.capacity = 30) :
    (g.load (some g.save)).world = g.world ∧
    (g.load (some g.save)).player.x = g.player.x ∧
    (g.load (some g.save)).player.y = g.player.y ∧
    (g.load (some g.save)).player.health = g.player.health ∧
    (g.load (some g.save)).player.hunger = g.player.hunger ∧
    (g.load (some g.save)).player.thirst = g.player.thirst ∧
    (g.load (some g.save)).player.stamina = g.player.stamina ∧
    (g.load (some g.save)).player.inventory = g.player.inventory ∧
    (g.load (some g.save)).player.equipped = g.player.equipped ∧
    (g.load (some g.save)).time_of_day = g.time_of_day ∧
    (g.load (some g.save)).entities = g.entities.map resetEntity := by
  refine ⟨from_dict_to_dict _ hwf, rfl, rfl, rfl, rfl, rfl, rfl, ?_, rfl, rfl, ?_⟩
  · show Inventory.from_list g.player.inventory.to_list = g.player.inventory
    exact from_list_to_list _ hnd hcap
  · show ((g.entities.map fun e => (⟨e.x, e.y, e.health⟩ : EntData)).map entFromData) =
      g.entities.map resetEntity
    rw [List.map_map]
    rfl

/-- Witness for `save_load_roundtrip`: a populated session with dirty
vitals and a roaming entity round-trips. -/
theorem save_load_roundtrip_witness :
    (gameC4.load (some gameC4.save)).world = gameC4.world ∧
    (gameC4.load (some gameC4.save)).player.inventory = gameC4.player.inventory ∧
    (gameC4.load (some gameC4.save)).time_of_day = gameC4.time_of_day ∧
    (gameC4.load (some gameC4.save)).entities = gameC4.entities.map resetEntity := by
  obtain ⟨w1, _, _, _, _, _, _, w8, _, w10, w11⟩ :=
    save_load_roundtrip gameC4 (by constructor <;> decide) (by decide) (by decide)
  exact ⟨w1, w8, w10, w11⟩

/-- C5 (amended): a load whose file is missing or fails to parse (`none`),
or whose parsed document lacks the world entry, leaves the in-memory
session completely untouched; but a document whose world entry parses
while the player entry is missing replaces the world and keeps the old
player, entities and time-of-day — the session is partially replaced, not
untouched.  In every case the failure is caught by the only caller and
logged, never propagated (the load function is total here).  (The original
"never partially replaced" is refuted by
`load_partial_replacement_counterexample`.) -/
theorem load_failure_paths (g : Game) :
    (g.load none = g) ∧
    (∀ raw : RawSave, raw.world = none → g.load (some raw) = g) ∧
    (∀ (raw : RawSave) (wd : WorldData), raw.world = some wd → raw.player = none →
      g.load (some raw) = { g with world := World.from_dict wd }) := by
  refine ⟨rfl, ?_, ?_⟩
  · intro raw hw
    simp [Game.load, hw]
  · intro raw wd hw hp
    simp [Game.load, hw, hp]

/-- Witness for `load_failure_paths`: the three failure paths at the
concrete session `gameC5`. -/
theorem load_failure_paths_witness :
    gameC5.load none = gameC5 ∧
    gameC5.load (some ⟨none, none, none, none⟩) = gameC5 ∧
    gameC5.load (some rawC5) = { gameC5 with world := World.from_dict worldDataC5 } := by
  obtain ⟨p1, p2, p3⟩ := load_failure_paths gameC5
  exact ⟨p1, p2 ⟨none, none, none, none⟩ rfl, p3 rawC5 worldDataC5 rfl rfl⟩

/-- C5 counterexample: loading a corrupt save whose world parses but whose
player entry is missing replaces the session's world while leaving the
player, entities and clock — the session is partially replaced, not left
untouched. -/
theorem load_partial_replacement_counterexample :
    (gameC5.load (some rawC5)).world ≠ gameC5.world ∧
    (gameC5.load (some rawC5)).player = gameC5.player ∧
    (gameC5.load (some rawC5)).entities = gameC5.entities ∧
    (gameC5.load (some rawC5)).time_of_day = gameC5.time_of_day := by
  refine ⟨?_, rfl, rfl, rfl⟩
  show World.from_dict worldDataC5 ≠ gameC5.world
  decide

theorem pyTruthy_some_ne (s : String) (hs : s ≠ "") : pyTruthy (some s) = true := by
  show (!s.isEmpty) = true
  rw [Bool.not_eq_true']
  rw [← Bool.not_eq_true]
  intro hc
  exact hs ((String.isEmpty_iff s).1 hc)

theorem harvest_resource_eq (wd : World) (tx ty amount : ℤ) (tile : Tile)
    (hget : wd.get_tile tx ty = some tile) (hp : pyTruthy tile.resource = true) :
    ∃ t2 : Tile,
      wd.harvest tx ty amount =
        (min amount tile.resource_amount, wd.setTile tx.toNat ty.toNat t2) ∧
      (wd.setTile tx.toNat ty.toNat t2).get_tile tx ty = some t2 ∧
      t2.resource_amount = tile.resource_amount - min amount tile.resource_amount ∧
      (tile.resource_amount - min amount tile.resource_amount ≤ 0 → t2.resource = none) ∧
      (¬tile.resource_amount - min amount tile.resource_amount ≤ 0 →
        t2.resource = tile.resource) := by
  unfold World.harvest
  rw [hget]
  simp only [hp, Bool.not_true, Bool.false_eq_true, if_false, ite_false]
  refine ⟨_, rfl, get_tile_set_self hget _, ?_, ?_, ?_⟩
  · split_ifs <;> rfl
  · intro hz
    split_ifs <;> simp_all
  · intro hz
    split_ifs <;> simp_all

theorem add_stock_of_ok (inv : Inventory) (i n : String) (a : ℤ)
    (hok : memberItems i inv.items = true ∨ inv.items.length < inv.capacity) :
    (inv.add i n a).2.stock i = inv.stock i + a := by
  cases haux : addAux i a inv.items with
  | some l' =>
    have hs := (addAux_some_spec i a inv.items l' haux).1
    simp [Inventory.add, haux, Inventory.stock, hs]
  | none =>
    have hmem := (addAux_eq_none_iff i a inv.items).1 haux
    have hl : inv.items.length < inv.capacity := by
      rcases hok with hm | hl
      · rw [hmem] at hm
        exact absurd hm (by simp)
      · exact hl
    have hcap : ¬inv.capacity ≤ inv.items.length := not_le.2 hl
    simp only [Inventory.add, haux, hcap, if_false, ite_false]
    show stockItems i (inv.items ++ [⟨i, n, a⟩]) = stockItems i inv.items + a
    rw [stockItems_append_single, hmem]
    simp [stockItems_of_not_member _ _ hmem]

/-- C10 (amended): an interact that harvests the last remaining unit of a
resource node removes the unit from the world but grants no item, because
the mutated tile's resource has already been cleared when the branch table
reads it; an interact that leaves at least one unit remaining grants
exactly one unit of the matching item, provided the inventory can accept
it (the stack already exists, or the distinct-stack count is below
capacity — `harvest_gain_lost_counterexample` shows the gain is silently
discarded at capacity, which the original claim overlooked). -/
theorem interact_last_unit_and_gain (g : Game) (tile : Tile) (rn : String)
    (hget : g.world.get_tile ⌊g.player.x / TILE_SIZE⌋ ⌊g.player.y / TILE_SIZE⌋ = some tile)
    (hres : tile.resource = some rn) (hrn : rn ≠ "") :
    (tile.resource_amount = 1 →
      (g.try_interact).player = g.player ∧
      (g.try_interact).world =
        (g.world.harvest ⌊g.player.x / TILE_SIZE⌋ ⌊g.player.y / TILE_SIZE⌋ 1).2) ∧
    (2 ≤ tile.resource_amount →
      ∀ iid iname, itemFor rn = some (iid, iname) →
      (memberItems iid g.player.inventory.items = true ∨
        g.player.inventory.items.length < g.player.inventory.capacity) →
      (g.try_interact).player.inventory.stock iid =
        g.player.inventory.stock iid + 1) := by
  have hp : pyTruthy tile.resource = true := by
    rw [hres]
    exact pyTruthy_some_ne rn hrn
  obtain ⟨t2, he, hgt2, hra, hdep, hkeep⟩ :=
    harvest_resource_eq g.world ⌊g.player.x / TILE_SIZE⌋ ⌊g.player.y / TILE_SIZE⌋ 1
      tile hget hp
  constructor
  · intro hone
    have hmin : min (1 : ℤ) tile.resource_amount = 1 := by omega
    have hres2 : t2.resource = none := hdep (by omega)
    simp only [Game.try_interact]
    rw [hget]
    simp only [hp, if_true, ite_true, he, hmin]
    rw [hgt2]
    simp [hres2]
  · intro htwo iid iname hitem hok
    have hmin : min (1 : ℤ) tile.resource_amount = 1 := by omega
    have hpos : ¬tile.resource_amount - min (1 : ℤ) tile.resource_amount ≤ 0 := by omega
    have hres2 : t2.resource = some rn := by
      rw [hkeep hpos, hres]
    simp only [Game.try_interact]
    rw [hget]
    simp only [hp, if_true, ite_true, he, hmin]
    rw [hgt2]
    rw [itemFor.eq_def] at hitem
    split at hitem
    · -- rn = "tree"
      simp only [Option.some.injEq, Prod.mk.injEq] at hitem
      obtain ⟨h1, h2⟩ := hitem
      subst h1
      simp [hres2]
      exact add_stock_of_ok g.player.inventory "wood" "Wood" 1 hok
    · simp only [Option.some.injEq, Prod.mk.injEq] at hitem
      obtain ⟨h1, h2⟩ := hitem
      subst h1
      simp [hres2]
      exact add_stock_of_ok g.player.inventory "stone" "Stone" 1 hok
    · simp only [Option.some.injEq, Prod.mk.injEq] at hitem
      obtain ⟨h1, h2⟩ := hitem
      subst h1
      simp [hres2]
      exact add_stock_of_ok g.player.inventory "berries" "Berries" 1 hok
    · exact absurd hitem (by simp)

/-- Witness for `interact_last_unit_and_gain`: the last-unit harvest keeps
the player intact, and a three-unit tree grants one wood (5 → 6). -/
theorem interact_last_unit_and_gain_witness :
    (gameC10w1.try_interact).player = gameC10w1.player ∧
    (gameC10w.try_interact).player.inventory.stock "wood" =
      gameC10w.player.inventory.stock "wood" + 1 := by
  have hfx1 : (⌊gameC10w1.player.x / TILE_SIZE⌋ : ℤ) = 0 := by
    norm_num [gameC10w1, TILE_SIZE]
  have hfy1 : (⌊gameC10w1.player.y / TILE_SIZE⌋ : ℤ) = 0 := by
    norm_num [gameC10w1, TILE_SIZE]
  have hfx : (⌊gameC10w.player.x / TILE_SIZE⌋ : ℤ) = 0 := by
    norm_num [gameC10w, TILE_SIZE]
  have hfy : (⌊gameC10w.player.y / TILE_SIZE⌋ : ℤ) = 0 := by
    norm_num [gameC10w, TILE_SIZE]
  constructor
  · refine ((interact_last_unit_and_gain gameC10w1
      { kind := "forest", resource := some "tree", resource_amount := 1 } "tree"
      ?_ rfl (by decide)).1 rfl).1
    rw [hfx1, hfy1]
    decide
  · refine (interact_last_unit_and_gain gameC10w tileTree "tree"
      ?_ rfl (by decide)).2 (by decide) "wood" "Wood" rfl (Or.inl (by decide))
    rw [hfx, hfy]
    decide

/-- C10 counterexample: with a full 30-stack inventory holding no wood,
harvesting a two-unit tree removes one unit from the node (2 → 1) but the
matching wood item is discarded by the failing `add`, so nothing is
gained even though at least one unit remained. -/
theorem harvest_gain_lost_counterexample :
    (gameC10.try_interact).world.get_tile 0 0 =
      some { kind := "forest", resource := some "tree", resource_amount := 1 } ∧
    memberItems "wood" (gameC10.try_interact).player.inventory.items = false ∧
    memberItems "wood" gameC10.player.inventory.items = false := by
  have hfx : (⌊gameC10.player.x / TILE_SIZE⌋ : ℤ) = 0 := by
    norm_num [gameC10, TILE_SIZE]
  have hfy : (⌊gameC10.player.y / TILE_SIZE⌋ : ℤ) = 0 := by
    norm_num [gameC10, TILE_SIZE]
  have hti : gameC10.try_interact =
      { gameC10 with world := (gameC10.world.harvest 0 0 1).2 } := by
    unfold Game.try_interact
    rw [hfx, hfy]
    decide
  rw [hti]
  refine ⟨by decide, by decide, by decide⟩

end SurvivalEcho
